import Mathlib

/-
Verification of the pubmate core against its specification.

This file gives a shallow embedding, in Lean 4, of the two core modules of
the pubmate repository:

* `src/pubmate/mint.py` — the `IdentifierGenerator` class: identifier
  minting with format validation and collision avoidance;
* `src/pubmate/rdfcleaner.py` — the translation-folding graph rewrite
  (`add_language`) and the per-term assertion splitter
  (`split_into_assertions`).

Python strings are modelled as lists of characters (`PyStr`), so that
Python slicing (`s[n:]`), `startswith`, and `len` become `List.drop`,
`List.isPrefixOf`, and `List.length`.  rdflib graphs are modelled as
finite sets of triples over a small RDF term type.  Python exceptions are
modelled with `Except`.  The cryptographic and random primitives
(`hashlib.sha256(...).hexdigest()` of the canonical JSON of a record, and
`str(uuid4())`) are taken as oracle parameters; theorems that depend on
their output format carry the corresponding hypotheses (a sha256 hexdigest
is 64 lowercase hex characters; the string form of a UUID4 is 36
characters whose first 8 are lowercase hex).
-/

namespace Pubmate

/-- A Python `str`, modelled as its sequence of code points. -/
abbrev PyStr := List Char

/-- Shorthand turning a Lean string literal into a `PyStr`. -/
def pys (s : String) : PyStr := s.toList

/-- Python exceptions raised by the modelled code. -/
inductive PyErr where
  /-- `raise NotImplementedError` (unsupported validation method). -/
  | notImplementedError : PyErr
  /-- `raise ValueError(msg)`. -/
  | valueError : PyStr → PyErr
  /-- Subscripting a `dict` with a slice, as in `entity["_collision":attempts]`:
      this raises (`TypeError: unhashable type: slice` before Python 3.12,
      `KeyError` from 3.12 on, records being dicts without slice keys);
      it never yields a salted record. -/
  | dictSliceError : PyErr
  /-- `getattr(entity, preflabel)` where `entity` is a `dict`: record fields
      are not attributes of a dict, so this raises `AttributeError`. -/
  | attributeError : PyErr
deriving DecidableEq, Repr

/-- State of one `IdentifierGenerator` instance (mint.py, lines 14-22).
    `nspace` is the source's `namespace` field (a Lean keyword), `typePfx`
    its `type_prefix`. -/
structure IdentifierGenerator where
  nspace : PyStr
  typePfx : Option PyStr
  registered_ids : Finset PyStr
deriving DecidableEq

/-- mint.py, lines 24-28: `is_id_available`. -/
def IdentifierGenerator.is_id_available (gen : IdentifierGenerator) (identifier : PyStr) : Bool :=
  if identifier ∈ gen.registered_ids then false else true

/-- mint.py, lines 66-67: `register_id` adds the identifier to the registry. -/
def IdentifierGenerator.register_id (gen : IdentifierGenerator) (identifier : PyStr) :
    IdentifierGenerator :=
  { gen with registered_ids := insert identifier gen.registered_ids }

/-- The character class `[0-9a-f]`. -/
def hexDigit (c : Char) : Bool :=
  (decide ('0' ≤ c) && decide (c ≤ '9')) || (decide ('a' ≤ c) && decide (c ≤ 'f'))

/-- Semantics of Python `bool(re.match(r"^[0-9a-f]{n}$", s))`: the first `n`
    characters are hex digits, and `$` matches either at the very end or
    just before a single trailing newline. -/
def reMatchHexN (n : Nat) (s : PyStr) : Bool :=
  (s.take n).all hexDigit &&
    (s.length == n || (s.length == n + 1 && s.getLastD ' ' == '\n'))

/-- mint.py, lines 51-64: the tail of `is_valid_id` — strip the optional
    `"{type_prefix}-"` and match the rest against the hex pattern of
    length `n`. -/
def IdentifierGenerator.validateRemaining (gen : IdentifierGenerator) (n : Nat)
    (remaining : PyStr) : Bool :=
  match gen.typePfx with
  | some tp =>
    let expectedPfx := tp ++ pys "-"
    if expectedPfx.isPrefixOf remaining then reMatchHexN n (remaining.drop expectedPfx.length)
    else false
  | none => reMatchHexN n remaining

/-- mint.py, lines 35-64: `is_valid_id(key, method)`.  The namespace check
    comes first and returns `False`; only afterwards does the method
    dispatch run, raising `NotImplementedError` for unknown methods. -/
def IdentifierGenerator.is_valid_id (gen : IdentifierGenerator) (key : PyStr) (method : PyStr) :
    Except PyErr Bool :=
  if gen.nspace.isPrefixOf key then
    let remaining := key.drop gen.nspace.length
    if method = pys "uuid" then Except.ok (gen.validateRemaining 8 remaining)
    else if method = pys "hash" then Except.ok (gen.validateRemaining 10 remaining)
    else Except.error PyErr.notImplementedError
  else Except.ok false

/-- mint.py, lines 94-135: the `while attempts < max_attempts` loop of
    `generate_id`, with the loop counter `attempts` and the remaining
    fuel `max_attempts - attempts` made explicit.

    `hash_dict` is the oracle for `self.hash_dict` (sha256 hexdigest of the
    record's canonical JSON); `uuids k` is the string form of the UUID
    drawn by `uuid4()` on attempt `k` of this call.

    On a retry of the hash method (`attempts > 0`) the source evaluates
    `entity["_collision":attempts]`, which subscripts a dict with a slice
    and therefore raises instead of producing a salted record.  When the
    fuel runs out the source builds the `RuntimeError` message with
    `getattr(entity, preflabel)`, which raises `AttributeError` on a dict
    before the `RuntimeError` can be raised. -/
def generate_id_from {Rec : Type} (hash_dict : Rec → PyStr) (uuids : Nat → PyStr)
    (gen : IdentifierGenerator) (entity : Rec) (method : PyStr)
    (check_collision : Bool) ( preflabel : PyStr) :
    Nat → Nat → Except PyErr (PyStr × IdentifierGenerator)
  | _, 0 => Except.error PyErr.attributeError
  | attempts, remaining + 1 =>
    let uniqueE : Except PyErr PyStr :=
      if method = pys "uuid" then
        Except.ok ((uuids attempts).take 8)
      else if method = pys "hash" then
        if attempts > 0 then Except.error PyErr.dictSliceError
        else Except.ok ((hash_dict entity).take 10)
      else
        Except.error (PyErr.valueError
          (pys "Unknown method: " ++ method ++ pys ". Available methods: uuid, hash, sequential, slug"))
    match uniqueE with
    | Except.error e => Except.error e
    | Except.ok unique_part =>
      let identifier : PyStr :=
        match gen.typePfx with
        | none => gen.nspace ++ unique_part
        | some tp => gen.nspace ++ tp ++ pys "-" ++ unique_part
      if check_collision then
        if gen.is_id_available identifier then
          Except.ok (identifier, gen.register_id identifier)
        else
          generate_id_from hash_dict uuids gen entity method check_collision preflabel
            (attempts + 1) remaining
      else
        Except.ok (identifier, gen)

/-- mint.py, lines 74-135: `generate_id`.  A successful call returns the
    identifier together with the updated generator state. -/
def generate_id {Rec : Type} (hash_dict : Rec → PyStr) (uuids : Nat → PyStr)
    (gen : IdentifierGenerator) (entity : Rec) (method : PyStr)
    (check_collision : Bool) (max_attempts : Nat) ( preflabel : PyStr) :
    Except PyErr (PyStr × IdentifierGenerator) :=
  generate_id_from hash_dict uuids gen entity method check_collision preflabel 0 max_attempts

/-- An rdflib RDF term: URI reference, blank node, plain literal, or
    language-tagged literal. -/
inductive Node where
  | uri : String → Node
  | blank : Nat → Node
  | lit : String → Node
  | langLit : String → String → Node
deriving DecidableEq, Repr

/-- An RDF triple (subject, predicate, object). -/
abbrev Triple := Node × Node × Node

/-- An rdflib `Graph`: a set of triples (`Graph.add` of a present triple is
    a no-op in rdflib's store). -/
abbrev Graph := Finset Triple

/-- rdfcleaner.py, line 23: the `translations` predicate under the base
    namespace. -/
def translationsPred (ns : String) : Node := Node.uri (ns ++ "translations")

/-- rdfcleaner.py, line 24: the `property_name` predicate. -/
def propertyNamePred (ns : String) : Node := Node.uri (ns ++ "property_name")

/-- rdfcleaner.py, line 25: the `language` predicate. -/
def languagePred (ns : String) : Node := Node.uri (ns ++ "language")

/-- rdfcleaner.py, line 26: the `translated_value` predicate. -/
def translatedValuePred (ns : String) : Node := Node.uri (ns ++ "translated_value")

/-- Solutions of the CONSTRUCT query (rdfcleaner.py, lines 31-48) that use
    the translations edge `(s, translations, t)`: join the three attribute
    triples of `t`, restrict `?propName` with the `VALUES` rows built from
    `property_map` (each row binds the plain literal `"k"` and the mapped
    predicate URI `<v>`), and bind `STRLANG(?value, ?lang)`.  `STRLANG`
    errors unless both arguments are plain string literals, and a solution
    whose `?literal` is unbound instantiates no template triple. -/
def nodeConstructed (g : Graph) (ns : String) (pm : List (String × String)) (s t : Node) :
    Finset Triple :=
  g.biUnion fun e2 => g.biUnion fun e3 => g.biUnion fun e4 =>
    (pm.filterMap fun kv =>
      match e3.2.2, e4.2.2 with
      | Node.lit lang, Node.lit val =>
        if e2 = (t, propertyNamePred ns, Node.lit kv.1)
            ∧ e3.1 = t ∧ e3.2.1 = languagePred ns
            ∧ e4.1 = t ∧ e4.2.1 = translatedValuePred ns then
          some (s, Node.uri kv.2, Node.langLit val lang)
        else none
      | _, _ => none).toFinset

/-- All triples produced by the CONSTRUCT query: one solution set per
    `translations` edge of the graph. -/
def constructedTriples (g : Graph) (ns : String) (pm : List (String × String)) : Finset Triple :=
  g.biUnion fun e1 =>
    if e1.2.1 = translationsPred ns then nodeConstructed g ns pm e1.1 e1.2.2 else ∅

/-- The DELETE/WHERE update (rdfcleaner.py, lines 56-66) removes the triples
    matched by `?subject <translations> ?t . ?t ?p ?o`: a triple is removed
    iff it is a translations edge whose object has at least one outgoing
    triple, or its subject is the object of some translations edge.  In
    particular a dangling translations edge — one whose target has no
    outgoing triples — matches no solution and is not removed. -/
def delCond (g : Graph) (ns : String) (tr : Triple) : Prop :=
  (tr.2.1 = translationsPred ns ∧ ∃ e ∈ g, e.1 = tr.2.2) ∨
    (∃ e ∈ g, e.2.1 = translationsPred ns ∧ e.2.2 = tr.1)

instance (g : Graph) (ns : String) (tr : Triple) : Decidable (delCond g ns tr) := by
  unfold delCond; infer_instance

/-- Python `s.endswith(suffixStr)`. -/
def pyEndsWith (s suffixStr : String) : Bool := suffixStr.toList.isSuffixOf s.toList

/-- rdfcleaner.py, lines 16-66: `add_language`.  Raises `ValueError` unless
    the base namespace ends in `/` or `#`; otherwise adds every CONSTRUCT
    result to the graph and then runs the DELETE update on the enlarged
    graph. -/
def add_language (g : Graph) (ns : String) (pm : List (String × String)) : Except PyErr Graph :=
  if pyEndsWith ns "/" || pyEndsWith ns "#" then
    let g1 := g ∪ constructedTriples g ns pm
    Except.ok (g1.filter fun tr => ¬ delCond g1 ns tr)
  else
    Except.error (PyErr.valueError (pys "base_namespace must end with / or #"))

/-- The `rdfs:subClassOf` predicate. -/
def rdfsSubClassOf : Node := Node.uri "http://www.w3.org/2000/01/rdf-schema#subClassOf"

/-- The string rdflib renders for a node (`str(node)`); used by the term-id
    derivation, which only ever sees URI subjects in practice. -/
def nodeStr : Node → String
  | Node.uri s => s
  | Node.blank n => "n" ++ toString n
  | Node.lit s => s
  | Node.langLit s _ => s

/-- Python `s.split(sep)[-1]`. -/
def pySplitLast (sep : String) (s : String) : String := (s.splitOn sep).getLastD s

/-- rdfcleaner.py, line 119: the local name of a subclass —
    `subclass.split("#")[-1] if "#" in subclass else subclass.split("/")[-1]`. -/
def termId (s : String) : String :=
  if s.contains '#' then pySplitLast "#" s else pySplitLast "/" s

/-- rdfcleaner.py, lines 110-114: `expand_curie` with the `except` fallback
    to `URIRef(clss)`.  The resolver models the graph's namespace manager
    (`none` = the expansion raised). -/
def expandOr (resolve : String → Option Node) (clss : String) : Node :=
  match resolve clss with
  | some n => n
  | none => Node.uri clss

/-- rdfcleaner.py, lines 123-127: the new `assertion_graph` built for one
    subclass — exactly the triples of `g` whose subject is `c`. -/
def subjectTriples (g : Graph) (c : Node) : Graph := g.filter fun tr => tr.1 = c

/-- rdfcleaner.py, lines 118-129: the pairs yielded for one parent class —
    one per `(?, rdfs:subClassOf, parent)` triple read from the store. -/
def assertionsFor (g : Graph) (parent : Node) : Finset (String × Graph) :=
  (g.filter fun tr => tr.2.1 = rdfsSubClassOf ∧ tr.2.2 = parent).image fun tr =>
    (termId (nodeStr tr.1), subjectTriples g tr.1)

/-- One iteration of the `for clss in all_classes` loop: the accumulator
    carries the pairs yielded so far and the state of the input store,
    which every operation in the body only reads (the `add` calls target
    the freshly created `assertion_graph`), so each step returns the store
    it was given. -/
def splitFold (resolve : String → Option Node) (acc : Finset (String × Graph) × Graph)
    (clss : String) : Finset (String × Graph) × Graph :=
  (acc.1 ∪ assertionsFor acc.2 (expandOr resolve clss), acc.2)

/-- rdfcleaner.py, lines 106-129: `split_into_assertions`, run to
    exhaustion.  Returns the set of yielded `(term_id, assertion_graph)`
    pairs together with the final state of the input store.  The parent
    classes are given as a list because a Python `set` iterates its
    elements once each in an unspecified order. -/
def split_into_assertions (g : Graph) (resolve : String → Option Node)
    (all_classes : List String) : Finset (String × Graph) × Graph :=
  all_classes.foldl (splitFold resolve) (∅, g)

instance {ε α : Type _} [DecidableEq ε] [DecidableEq α] : DecidableEq (Except ε α) :=
  fun x y =>
    match x, y with
    | Except.ok a, Except.ok b =>
      if h : a = b then Decidable.isTrue (congrArg Except.ok h)
      else Decidable.isFalse (fun hc => h (Except.ok.inj hc))
    | Except.error e, Except.error f =>
      if h : e = f then Decidable.isTrue (congrArg Except.error h)
      else Decidable.isFalse (fun hc => h (Except.error.inj hc))
    | Except.ok _, Except.error _ => Decidable.isFalse (fun hc => Except.noConfusion hc)
    | Except.error _, Except.ok _ => Decidable.isFalse (fun hc => Except.noConfusion hc)

/-- The identifier assembled from the namespace, the optional type prefix,
    and a unique part (mint.py, lines 114-118). -/
def builtId (gen : IdentifierGenerator) (u : PyStr) : PyStr :=
  match gen.typePfx with
  | none => gen.nspace ++ u
  | some tp => gen.nspace ++ tp ++ pys "-" ++ u

/-- The possible unique parts a successful `generate_id` call can produce:
    the first 8 characters of some drawn UUID string, or the first 10
    characters of the record's sha256 hexdigest. -/
def uniqueFor {Rec : Type} (hash_dict : Rec → PyStr) (uuids : Nat → PyStr) (entity : Rec)
    (method : PyStr) (u : PyStr) : Prop :=
  (method = pys "uuid" ∧ ∃ k, u = (uuids k).take 8) ∨
    (method = pys "hash" ∧ u = (hash_dict entity).take 10)

/-- Arguments of one `generate_id` call in a call sequence (the oracle
    `uuids` supplies the UUID strings drawn during that call). -/
structure CallSpec (Rec : Type) where
  entity : Rec
  method : PyStr
  check_collision : Bool
  max_attempts : Nat
  preflabel : PyStr
  uuids : Nat → PyStr

/-- A sequence of `generate_id` calls against one generator instance.
    A call that raises returns no identifier and leaves the registry as it
    was (the registry is only updated on successful return), so the caller
    can continue with further calls. -/
def runCalls {Rec : Type} (hash_dict : Rec → PyStr) :
    IdentifierGenerator → List (CallSpec Rec) → List PyStr × IdentifierGenerator
  | gen, [] => ([], gen)
  | gen, c :: cs =>
    match generate_id hash_dict c.uuids gen c.entity c.method c.check_collision
        c.max_attempts c.preflabel with
    | Except.ok (id, gen') =>
      let rest := runCalls hash_dict gen' cs
      (id :: rest.1, rest.2)
    | Except.error _ => runCalls hash_dict gen cs

/-! Concrete inputs used to instantiate the theorems below. -/

/-- A generator over `http://ex/` with no type prefix and an empty registry. -/
def genEx : IdentifierGenerator := ⟨pys "http://ex/", none, ∅⟩

/-- Oracle for a record whose canonical-JSON sha256 hexdigest is 64 times `a`. -/
def hashConstA : Unit → PyStr := fun _ => List.replicate 64 'a'

/-- Oracle drawing the same UUID string on every attempt. -/
def uuidConstA : Nat → PyStr := fun _ => pys "aaaaaaaa-bbbb-cccc-dddd-eeeeeeeeeeee"

/-- `genEx` with the sole hash-method candidate for `hashConstA` already taken. -/
def genSeedHash : IdentifierGenerator := ⟨pys "http://ex/", none, {pys "http://ex/aaaaaaaaaa"}⟩

/-- `genEx` with the sole uuid-method candidate for `uuidConstA` already taken. -/
def genSeedUuid : IdentifierGenerator := ⟨pys "http://ex/", none, {pys "http://ex/aaaaaaaa"}⟩

/-- A generator over `http://example.org/term/` with no type prefix. -/
def genTerm : IdentifierGenerator := ⟨pys "http://example.org/term/", none, ∅⟩

/-- A well-formed sha256-hexdigest oracle (64 lowercase hex characters). -/
def hashHex : Unit → PyStr :=
  fun _ => pys "0123456789abcdef0123456789abcdef0123456789abcdef0123456789abcdef"

/-- A well-formed UUID-string oracle (36 characters, first 8 lowercase hex). -/
def uuidFmt : Nat → PyStr := fun _ => pys "12345678-9abc-def0-1234-56789abcdef0"

/-- A hash-method call with `check_collision=False`. -/
def callNoCheck : CallSpec Unit := ⟨(), pys "hash", false, 10, pys "name", uuidConstA⟩

/-- A collision-checked uuid-method call drawing UUIDs starting `11111111`. -/
def callU1 : CallSpec Unit :=
  ⟨(), pys "uuid", true, 10, pys "name", fun _ => pys "11111111-1111-1111-1111-111111111111"⟩

/-- A collision-checked uuid-method call drawing UUIDs starting `22222222`. -/
def callU2 : CallSpec Unit :=
  ⟨(), pys "uuid", true, 10, pys "name", fun _ => pys "22222222-2222-2222-2222-222222222222"⟩

/-- The base namespace used by the concrete cleaner runs. -/
def nsEx : String := "http://ex/"

/-- The standard label predicate URI. -/
def rdfsLabelStr : String := "http://www.w3.org/2000/01/rdf-schema#label"

/-- The property map sending the translation property `label` to `rdfs:label`. -/
def pmEx : List (String × String) := [("label", rdfsLabelStr)]

/-- A graph holding one dangling translations edge: its target has no
    outgoing triples. -/
def gDangle : Graph := {(Node.uri "s", translationsPred nsEx, Node.uri "t")}

/-- Subject of the scenario-D graph. -/
def sN : Node := Node.uri "http://ex/S"

/-- Translation node of the scenario-D graph. -/
def tN : Node := Node.uri "http://ex/T"

/-- The scenario-D graph: `S --translations--> T` with a well-formed
    translation node `T` (`label`, `en`, `Foo`). -/
def gScenD : Graph :=
  {(sN, translationsPred nsEx, tN),
   (tN, propertyNamePred nsEx, Node.lit "label"),
   (tN, languagePred nsEx, Node.lit "en"),
   (tN, translatedValuePred nsEx, Node.lit "Foo")}

/-- The graph `add_language` produces from `gScenD`. -/
def cleanedScenD : Graph := {(sN, Node.uri rdfsLabelStr, Node.langLit "Foo" "en")}

/-- Another dangling-translations-edge graph (target `y` has no triples). -/
def gDangle2 : Graph := {(Node.uri "x", translationsPred nsEx, Node.uri "y")}

/-- A graph whose translation node `w` is malformed: it carries a
    `property_name` but no `language` and no `translated_value`. -/
def gMal : Graph :=
  {(Node.uri "m", translationsPred nsEx, Node.uri "w"),
   (Node.uri "w", propertyNamePred nsEx, Node.lit "label")}

/-! ## Theorems -/

/-- Claim C1: the spec requires the hash-method collision retry to recompute
    the candidate from an altered payload (the attempt counter embedded into
    the record before hashing).  The code instead evaluates
    `entity["_collision":attempts]`, subscripting the record dict with a
    slice, which raises; at a concrete input whose first candidate is
    already registered, `generate_id` therefore raises on the retry instead
    of hashing any altered payload. -/
theorem C1_hash_retry_raises :
    generate_id hashConstA uuidConstA genSeedHash () (pys "hash") true 10 (pys "name")
      = Except.error PyErr.dictSliceError := by decide

/-- Claim C6: when every candidate collides, the code reaches the
    exhaustion branch, but building the error message evaluates
    `getattr(entity, preflabel)` on a dict record, which raises
    `AttributeError` before the intended `RuntimeError` naming the record's
    label can be raised; shown here at a concrete input whose only uuid
    candidate is already registered. -/
theorem C6_exhaustion_raises_attribute_error :
    generate_id hashConstA uuidConstA genSeedUuid () (pys "uuid") true 2 (pys "name")
      = Except.error PyErr.attributeError := by decide

/-- Claim C7 counterexample: for a key that does not start with the
    namespace, `is_valid_id` returns `False` before the method is ever
    inspected, so an unsupported method does not raise — refuting the claim
    that it raises for every key. -/
theorem C7_cex_no_raise_outside_namespace :
    IdentifierGenerator.is_valid_id genEx (pys "nope") (pys "slug") = Except.ok false
      ∧ Except.ok false ≠ (Except.error PyErr.notImplementedError : Except PyErr Bool) := by
  decide

/-- Claim C7 (amended): for every key that does start with the namespace,
    `is_valid_id` raises `NotImplementedError` for any method other than
    `uuid` and `hash`. -/
theorem C7_amended_raises_in_namespace (gen : IdentifierGenerator) (key method : PyStr)
    (hpre : gen.nspace.isPrefixOf key = true)
    (hu : method ≠ pys "uuid") (hh : method ≠ pys "hash") :
    gen.is_valid_id key method = Except.error PyErr.notImplementedError := by
  simp [IdentifierGenerator.is_valid_id, hpre, hu, hh]

/-- Claim C7 witness: the amended theorem at a concrete in-namespace key and
    the unsupported method `slug`. -/
theorem C7_amended_witness :
    IdentifierGenerator.is_valid_id genEx (pys "http://ex/zzz") (pys "slug")
      = Except.error PyErr.notImplementedError :=
  C7_amended_raises_in_namespace genEx (pys "http://ex/zzz") (pys "slug")
    (by decide) (by decide) (by decide)

/-- Claim C5 counterexample: two `generate_id` calls with
    `check_collision=False` on the same generator return the identical
    identifier twice (the identifier is returned without being registered),
    refuting the unrestricted no-repeat claim. -/
theorem C5_cex_duplicate_without_check :
    (runCalls hashConstA genEx [callNoCheck, callNoCheck]).1
        = [pys "http://ex/aaaaaaaaaa", pys "http://ex/aaaaaaaaaa"]
      ∧ ¬ ((runCalls hashConstA genEx [callNoCheck, callNoCheck]).1).Nodup := by
  decide

/-- Claim C3 counterexample: a translations edge whose target node has no
    outgoing triples matches no solution of the DELETE query (its WHERE
    clause requires `?t ?p ?o`), so after `add_language` the graph still
    contains a triple whose predicate is the translations edge — refuting
    the zero-translations-edges claim. -/
theorem C3_cex_dangling_edge_survives :
    add_language gDangle nsEx pmEx = Except.ok gDangle
      ∧ (Node.uri "s", translationsPred nsEx, Node.uri "t") ∈ gDangle := by
  decide

/-- Claim C10 counterexample: a node reachable via a translations edge but
    carrying no triples of its own keeps its incoming translations edge —
    refuting the claim that every reachable node's incoming translations
    edges are deleted. -/
theorem C10_cex_edge_to_bare_node_survives :
    add_language gDangle2 nsEx pmEx = Except.ok gDangle2
      ∧ (Node.uri "x", translationsPred nsEx, Node.uri "y") ∈ gDangle2 := by
  decide

lemma generate_id_from_ok_register {Rec : Type} (hd : Rec → PyStr) (us : Nat → PyStr)
    (gen : IdentifierGenerator) (e : Rec) (m pl : PyStr) :
    ∀ remaining attempts id gen',
      generate_id_from hd us gen e m true pl attempts remaining = Except.ok (id, gen') →
        id ∉ gen.registered_ids ∧ gen' = gen.register_id id := by
  intro remaining
  induction remaining with
  | zero =>
    intro attempts id gen' h
    simp [generate_id_from] at h
  | succ n ih =>
    intro attempts id gen' h
    simp only [generate_id_from] at h
    split at h
    · exact absurd h (by simp)
    · rename_i u hu
      simp only [if_true] at h
      split at h
      · rename_i havail
        by_cases hmem : (match gen.typePfx with
            | none => gen.nspace ++ u
            | some tp => gen.nspace ++ tp ++ pys "-" ++ u) ∈ gen.registered_ids
        · unfold IdentifierGenerator.is_id_available at havail
          rw [if_pos hmem] at havail
          exact absurd havail (by simp)
        · have hp := Except.ok.inj h
          cases hp
          exact ⟨hmem, rfl⟩
      · exact ih (attempts + 1) id gen' h

lemma generate_id_from_ok_shape {Rec : Type} (hd : Rec → PyStr) (us : Nat → PyStr)
    (gen : IdentifierGenerator) (e : Rec) (m : PyStr) (cc : Bool) (pl : PyStr) :
    ∀ remaining attempts id gen',
      generate_id_from hd us gen e m cc pl attempts remaining = Except.ok (id, gen') →
        ∃ u, uniqueFor hd us e m u ∧ id = builtId gen u := by
  intro remaining
  induction remaining with
  | zero =>
    intro attempts id gen' h
    simp [generate_id_from] at h
  | succ n ih =>
    intro attempts id gen' h
    simp only [generate_id_from] at h
    split at h
    · exact absurd h (by simp)
    · rename_i u hu
      have hufor : uniqueFor hd us e m u := by
        split at hu
        · exact Or.inl ⟨by assumption, attempts, (Except.ok.inj hu).symm⟩
        · split at hu
          · split at hu
            · exact absurd hu (by simp)
            · exact Or.inr ⟨by assumption, (Except.ok.inj hu).symm⟩
          · exact absurd hu (by simp)
      split at h
      · split at h
        · have hp := Except.ok.inj h
          cases hp
          exact ⟨u, hufor, rfl⟩
        · exact ih (attempts + 1) id gen' h
      · have hp := Except.ok.inj h
        cases hp
        exact ⟨u, hufor, rfl⟩

lemma all_take_of_all {p : Char → Bool} {l : PyStr} (h : l.all p = true) (n : Nat) :
    (l.take n).all p = true := by
  rw [List.all_eq_true] at *
  intro x hx
  exact h x ((List.take_prefix n l).subset hx)

lemma reMatchHexN_of {n : Nat} {u : PyStr} (hlen : u.length = n) (hall : u.all hexDigit = true) :
    reMatchHexN n u = true := by
  unfold reMatchHexN
  rw [← hlen, List.take_length]
  simp [hall]

lemma validateRemaining_builtId (gen : IdentifierGenerator) {n : Nat} {u : PyStr}
    (hlen : u.length = n) (hall : u.all hexDigit = true) :
    gen.validateRemaining n ((builtId gen u).drop gen.nspace.length) = true := by
  unfold IdentifierGenerator.validateRemaining builtId
  cases hpfx : gen.typePfx with
  | none =>
    dsimp only
    rw [List.drop_left]
    exact reMatchHexN_of hlen hall
  | some tp =>
    dsimp only
    have hassoc : gen.nspace ++ tp ++ pys "-" ++ u = gen.nspace ++ ((tp ++ pys "-") ++ u) := by
      simp [List.append_assoc]
    rw [hassoc, List.drop_left]
    have hpre : (tp ++ pys "-").isPrefixOf ((tp ++ pys "-") ++ u) = true := by
      rw [List.isPrefixOf_iff_prefix]
      exact List.prefix_append _ _
    rw [if_pos hpre, List.drop_left]
    exact reMatchHexN_of hlen hall

/-- Claim C2: for every generator whose namespace ends in `/` or `#`, every
    identifier a successful `generate_id` call returns (method `hash` or
    `uuid`, with or without a configured type prefix) passes `is_valid_id`
    for the same method on the same generator.  The oracle hypotheses state
    the output format of the primitives: a sha256 hexdigest is 64 lowercase
    hex characters, and the string form of a UUID4 is 36 characters whose
    first 8 are lowercase hex. -/
theorem C2_validity_round_trip {Rec : Type} (hash_dict : Rec → PyStr) (uuids : Nat → PyStr)
    (gen : IdentifierGenerator) (entity : Rec) (method : PyStr) (cc : Bool)
    (max_attempts : Nat) ( preflabel : PyStr) (id : PyStr) (gen' : IdentifierGenerator)
    (hsep : (pys "/").isSuffixOf gen.nspace = true ∨ (pys "#").isSuffixOf gen.nspace = true)
    (hm : method = pys "uuid" ∨ method = pys "hash")
    (hsha : ∀ r, (hash_dict r).length = 64 ∧ (hash_dict r).all hexDigit = true)
    (huuid : ∀ k, (uuids k).length = 36 ∧ ((uuids k).take 8).all hexDigit = true)
    (h : generate_id hash_dict uuids gen entity method cc max_attempts preflabel
          = Except.ok (id, gen')) :
    gen.is_valid_id id method = Except.ok true := by
  obtain ⟨u, hufor, hid⟩ :=
    generate_id_from_ok_shape hash_dict uuids gen entity method cc preflabel
      max_attempts 0 id gen' h
  subst hid
  have hpre : gen.nspace.isPrefixOf (builtId gen u) = true := by
    rw [List.isPrefixOf_iff_prefix]
    unfold builtId
    cases gen.typePfx with
    | none => exact List.prefix_append _ _
    | some tp =>
      dsimp only
      have : gen.nspace ++ tp ++ pys "-" ++ u = gen.nspace ++ (tp ++ (pys "-" ++ u)) := by
        simp [List.append_assoc]
      rw [this]
      exact List.prefix_append _ _
  unfold IdentifierGenerator.is_valid_id
  rw [if_pos hpre]
  rcases hufor with ⟨hmu, k, hu⟩ | ⟨hmh, hu⟩
  · subst hmu
    rw [if_pos rfl]
    subst hu
    obtain ⟨hl, ha⟩ := huuid k
    have hlen : ((uuids k).take 8).length = 8 := by
      rw [List.length_take, hl]
      decide
    rw [validateRemaining_builtId gen hlen ha]
  · subst hmh
    rw [if_neg (by decide), if_pos rfl]
    subst hu
    obtain ⟨hl, ha⟩ := hsha entity
    have hlen : ((hash_dict entity).take 10).length = 10 := by
      rw [List.length_take, hl]
      decide
    rw [validateRemaining_builtId gen hlen (all_take_of_all ha 10)]

/-- Claim C2 witness: a concrete hash-method generation over
    `http://example.org/term/` whose returned identifier validates. -/
theorem C2_validity_round_trip_witness :
    IdentifierGenerator.is_valid_id genTerm (pys "http://example.org/term/0123456789")
      (pys "hash") = Except.ok true :=
  C2_validity_round_trip hashHex uuidFmt genTerm () (pys "hash") true 10 (pys "name")
    (pys "http://example.org/term/0123456789")
    (genTerm.register_id (pys "http://example.org/term/0123456789"))
    (Or.inl (by decide)) (Or.inr rfl) (fun r => ⟨rfl, rfl⟩) (fun k => ⟨rfl, rfl⟩)
    (by decide)

lemma generate_id_ok_register {Rec : Type} (hd : Rec → PyStr) (us : Nat → PyStr)
    (gen : IdentifierGenerator) (e : Rec) (m : PyStr) (ma : Nat) (pl : PyStr)
    {id : PyStr} {gen' : IdentifierGenerator}
    (h : generate_id hd us gen e m true ma pl = Except.ok (id, gen')) :
    id ∉ gen.registered_ids ∧ gen' = gen.register_id id :=
  generate_id_from_ok_register hd us gen e m pl ma 0 id gen' h

lemma runCalls_fresh {Rec : Type} (hd : Rec → PyStr) :
    ∀ (cs : List (CallSpec Rec)) (gen : IdentifierGenerator),
      (∀ c ∈ cs, c.check_collision = true) →
      ∀ y ∈ (runCalls hd gen cs).1, y ∉ gen.registered_ids := by
  intro cs
  induction cs with
  | nil =>
    intro gen _ y hy
    simp [runCalls] at hy
  | cons c cs ih =>
    intro gen hcc y hy
    have hccc : c.check_collision = true := hcc c (List.mem_cons_self c cs)
    have htail : ∀ c' ∈ cs, c'.check_collision = true :=
      fun c' hc' => hcc c' (List.mem_cons_of_mem c hc')
    unfold runCalls at hy
    cases hgen : generate_id hd c.uuids gen c.entity c.method c.check_collision
        c.max_attempts c.preflabel with
    | ok p =>
      rw [hgen] at hy
      obtain ⟨id, gen'⟩ := p
      dsimp only at hy
      rw [hccc] at hgen
      obtain ⟨hnotin, hreg⟩ := generate_id_ok_register hd c.uuids gen c.entity c.method
        c.max_attempts c.preflabel hgen
      rcases List.mem_cons.mp hy with hy1 | hy2
      · exact hy1 ▸ hnotin
      · intro hmem
        exact ih gen' htail y hy2
          (hreg ▸ Finset.mem_insert_of_mem hmem)
    | error err =>
      rw [hgen] at hy
      exact ih gen htail y hy

/-- Claim C5 (amended): across any sequence of `generate_id` calls with
    `check_collision=true` on one generator instance (no external reset),
    no identifier is ever returned twice: every successful call returns an
    identifier that was absent from the registry and registers it, so the
    list of returned identifiers has no duplicates. -/
theorem C5_amended_no_repeat {Rec : Type} (hash_dict : Rec → PyStr)
    (gen : IdentifierGenerator) (calls : List (CallSpec Rec))
    (hcc : ∀ c ∈ calls, c.check_collision = true) :
    ((runCalls hash_dict gen calls).1).Nodup := by
  induction calls generalizing gen with
  | nil => simp [runCalls]
  | cons c cs ih =>
    have hccc : c.check_collision = true := hcc c (List.mem_cons_self c cs)
    have htail : ∀ c' ∈ cs, c'.check_collision = true :=
      fun c' hc' => hcc c' (List.mem_cons_of_mem c hc')
    unfold runCalls
    cases hgen : generate_id hash_dict c.uuids gen c.entity c.method c.check_collision
        c.max_attempts c.preflabel with
    | ok p =>
      obtain ⟨id, gen'⟩ := p
      dsimp only
      rw [List.nodup_cons]
      refine ⟨?_, ih gen' htail⟩
      intro hmem
      rw [hccc] at hgen
      obtain ⟨hnotin, hreg⟩ := generate_id_ok_register hash_dict c.uuids gen c.entity
        c.method c.max_attempts c.preflabel hgen
      exact runCalls_fresh hash_dict cs gen' htail id hmem
        (hreg ▸ Finset.mem_insert_self id gen.registered_ids)
    | error err =>
      exact ih gen htail

/-- Claim C5 witness: two collision-checked uuid-method calls on one
    generator return distinct identifiers. -/
theorem C5_amended_witness : ((runCalls hashConstA genEx [callU1, callU2]).1).Nodup :=
  C5_amended_no_repeat hashConstA genEx [callU1, callU2] (by decide)

lemma mem_nodeConstructed {g : Graph} {ns : String} {pm : List (String × String)}
    {s t : Node} {tr : Triple} :
    tr ∈ nodeConstructed g ns pm s t ↔
      ∃ k v lang val, (k, v) ∈ pm
        ∧ (t, propertyNamePred ns, Node.lit k) ∈ g
        ∧ (t, languagePred ns, Node.lit lang) ∈ g
        ∧ (t, translatedValuePred ns, Node.lit val) ∈ g
        ∧ tr = (s, Node.uri v, Node.langLit val lang) := by
  unfold nodeConstructed
  simp only [Finset.mem_biUnion, List.mem_toFinset, List.mem_filterMap]
  constructor
  · rintro ⟨e2, he2, e3, he3, e4, he4, kv, hkv, hf⟩
    obtain ⟨a3, p3, o3⟩ := e3
    obtain ⟨a4, p4, o4⟩ := e4
    cases o3 <;> cases o4 <;> dsimp only at hf <;> try (exact Option.noConfusion hf)
    rename_i lang val
    split at hf
    · rename_i hcond
      obtain ⟨hc2, hc31, hc32, hc41, hc42⟩ := hcond
      have htr := Option.some.inj hf
      subst hc2
      subst hc31
      subst hc32
      subst hc41
      subst hc42
      exact ⟨kv.1, kv.2, lang, val, by simpa using hkv, he2, he3, he4, htr.symm⟩
    · exact absurd hf (by simp)
  · rintro ⟨k, v, lang, val, hkv, hp, hl, hv, rfl⟩
    refine ⟨(t, propertyNamePred ns, Node.lit k), hp,
      (t, languagePred ns, Node.lit lang), hl,
      (t, translatedValuePred ns, Node.lit val), hv, (k, v), hkv, ?_⟩
    simp

lemma mem_constructedTriples {g : Graph} {ns : String} {pm : List (String × String)}
    {tr : Triple} :
    tr ∈ constructedTriples g ns pm ↔
      ∃ s t, (s, translationsPred ns, t) ∈ g ∧ tr ∈ nodeConstructed g ns pm s t := by
  unfold constructedTriples
  simp only [Finset.mem_biUnion]
  constructor
  · rintro ⟨e1, he1, hmem⟩
    obtain ⟨s1, p1, t1⟩ := e1
    split at hmem
    · rename_i hpred
      dsimp only at hpred
      subst hpred
      exact ⟨s1, t1, he1, hmem⟩
    · exact absurd hmem (by simp)
  · rintro ⟨s, t, hst, hmem⟩
    refine ⟨(s, translationsPred ns, t), hst, ?_⟩
    rw [if_pos rfl]
    exact hmem

lemma add_language_ok {g : Graph} {ns : String} {pm : List (String × String)} {g' : Graph}
    (h : add_language g ns pm = Except.ok g') :
    g' = (g ∪ constructedTriples g ns pm).filter
        (fun tr => ¬ delCond (g ∪ constructedTriples g ns pm) ns tr) := by
  unfold add_language at h
  split at h
  · exact (Except.ok.inj h).symm
  · exact absurd h (by simp)

lemma add_language_sep {g : Graph} {ns : String} {pm : List (String × String)} {g' : Graph}
    (h : add_language g ns pm = Except.ok g') :
    (pyEndsWith ns "/" || pyEndsWith ns "#") = true := by
  unfold add_language at h
  split at h
  · assumption
  · exact absurd h (by simp)

lemma nodup_keys_val_eq {pm : List (String × String)} (h : (pm.map Prod.fst).Nodup)
    {k v v' : String} (h1 : (k, v) ∈ pm) (h2 : (k, v') ∈ pm) : v = v' := by
  induction pm with
  | nil => cases h1
  | cons p ps ih =>
    rw [List.map_cons, List.nodup_cons] at h
    rcases List.mem_cons.mp h1 with rfl | hm1
    · rcases List.mem_cons.mp h2 with heq | hm2
      · cases heq
        rfl
      · exact absurd (List.mem_map_of_mem Prod.fst hm2) (by simpa using h.1)
    · rcases List.mem_cons.mp h2 with heq | hm2
      · cases heq
        exact absurd (List.mem_map_of_mem Prod.fst hm1) (by simpa using h.1)
      · exact ih h.2 hm1 hm2

/-- Claim C3 (amended): after a successful `add_language`, (1) any
    translations edge still present is dangling — its target has no
    outgoing triple in the result (a dangling edge survives the DELETE,
    whose WHERE clause requires `?t ?p ?o`); (2) no triple whose subject
    was a translation node before the call remains; (3) every translation
    node carrying a `property_name` matching a key of the property map, a
    `language`, and a `translated_value` (as plain literals) contributes
    the language-tagged literal triple (subject, mapped predicate,
    value@lang) to the CONSTRUCT phase's added set; and (4) when those
    three attributes are unique and the property-map keys are distinct, the
    node contributes exactly that one triple. -/
theorem C3_amended_clean_completeness (g : Graph) (ns : String)
    (pm : List (String × String)) (g' : Graph)
    (h : add_language g ns pm = Except.ok g') :
    (∀ s t, (s, translationsPred ns, t) ∈ g' → ∀ p o, (t, p, o) ∉ g')
    ∧ (∀ s t, (s, translationsPred ns, t) ∈ g → ∀ p o, (t, p, o) ∉ g')
    ∧ (∀ s t k v lang val, (s, translationsPred ns, t) ∈ g →
        (t, propertyNamePred ns, Node.lit k) ∈ g → (k, v) ∈ pm →
        (t, languagePred ns, Node.lit lang) ∈ g →
        (t, translatedValuePred ns, Node.lit val) ∈ g →
        (s, Node.uri v, Node.langLit val lang) ∈ constructedTriples g ns pm)
    ∧ (∀ s t k v lang val, (s, translationsPred ns, t) ∈ g → (k, v) ∈ pm →
        (pm.map Prod.fst).Nodup →
        g.filter (fun tr => tr.1 = t ∧ tr.2.1 = propertyNamePred ns)
          = {(t, propertyNamePred ns, Node.lit k)} →
        g.filter (fun tr => tr.1 = t ∧ tr.2.1 = languagePred ns)
          = {(t, languagePred ns, Node.lit lang)} →
        g.filter (fun tr => tr.1 = t ∧ tr.2.1 = translatedValuePred ns)
          = {(t, translatedValuePred ns, Node.lit val)} →
        nodeConstructed g ns pm s t = {(s, Node.uri v, Node.langLit val lang)}) := by
  have hg' := add_language_ok h
  refine ⟨?_, ?_, ?_, ?_⟩
  · intro s t hst p o hto
    rw [hg', Finset.mem_filter] at hst hto
    exact hst.2 (Or.inl ⟨rfl, ⟨(t, p, o), hto.1, rfl⟩⟩)
  · intro s t hst p o hto
    rw [hg', Finset.mem_filter] at hto
    exact hto.2 (Or.inr ⟨(s, translationsPred ns, t),
      Finset.mem_union_left _ hst, rfl, rfl⟩)
  · intro s t k v lang val hst hp hkv hl hv
    exact mem_constructedTriples.mpr ⟨s, t, hst,
      mem_nodeConstructed.mpr ⟨k, v, lang, val, hkv, hp, hl, hv, rfl⟩⟩
  · intro s t k v lang val hst hkv hnd hfp hfl hfv
    ext tr
    rw [mem_nodeConstructed, Finset.mem_singleton]
    constructor
    · rintro ⟨k', v', lang', val', hkv', hp', hl', hv', rfl⟩
      have hkk : Node.lit k' = Node.lit k := by
        have hin : (t, propertyNamePred ns, Node.lit k')
            ∈ g.filter (fun tr => tr.1 = t ∧ tr.2.1 = propertyNamePred ns) :=
          Finset.mem_filter.mpr ⟨hp', rfl, rfl⟩
        rw [hfp, Finset.mem_singleton] at hin
        exact congrArg (fun tr : Triple => tr.2.2) hin
      have hll : Node.lit lang' = Node.lit lang := by
        have hin : (t, languagePred ns, Node.lit lang')
            ∈ g.filter (fun tr => tr.1 = t ∧ tr.2.1 = languagePred ns) :=
          Finset.mem_filter.mpr ⟨hl', rfl, rfl⟩
        rw [hfl, Finset.mem_singleton] at hin
        exact congrArg (fun tr : Triple => tr.2.2) hin
      have hvv : Node.lit val' = Node.lit val := by
        have hin : (t, translatedValuePred ns, Node.lit val')
            ∈ g.filter (fun tr => tr.1 = t ∧ tr.2.1 = translatedValuePred ns) :=
          Finset.mem_filter.mpr ⟨hv', rfl, rfl⟩
        rw [hfv, Finset.mem_singleton] at hin
        exact congrArg (fun tr : Triple => tr.2.2) hin
      injection hkk with hk
      injection hll with hl2
      injection hvv with hv2
      subst hk
      subst hl2
      subst hv2
      rw [nodup_keys_val_eq hnd hkv' hkv]
    · rintro rfl
      exact ⟨k, v, lang, val, hkv,
        by
          have hin : (t, propertyNamePred ns, Node.lit k)
              ∈ {(t, propertyNamePred ns, Node.lit k)} :=
            Finset.mem_singleton_self _
          rw [← hfp] at hin
          exact (Finset.mem_filter.mp hin).1,
        by
          have hin : (t, languagePred ns, Node.lit lang)
              ∈ {(t, languagePred ns, Node.lit lang)} :=
            Finset.mem_singleton_self _
          rw [← hfl] at hin
          exact (Finset.mem_filter.mp hin).1,
        by
          have hin : (t, translatedValuePred ns, Node.lit val)
              ∈ {(t, translatedValuePred ns, Node.lit val)} :=
            Finset.mem_singleton_self _
          rw [← hfv] at hin
          exact (Finset.mem_filter.mp hin).1,
        rfl⟩

/-- Claim C3 witness: the scenario-D graph — after cleaning, the
    translation node's triples are gone, the language-tagged literal triple
    was constructed, and it is the unique contribution of that node. -/
theorem C3_amended_witness :
    ((tN, propertyNamePred nsEx, Node.lit "label") ∉ cleanedScenD)
    ∧ (sN, Node.uri rdfsLabelStr, Node.langLit "Foo" "en")
        ∈ constructedTriples gScenD nsEx pmEx
    ∧ nodeConstructed gScenD nsEx pmEx sN tN
        = {(sN, Node.uri rdfsLabelStr, Node.langLit "Foo" "en")} := by
  have thm := C3_amended_clean_completeness gScenD nsEx pmEx cleanedScenD (by decide)
  refine ⟨thm.2.1 sN tN (by decide) (propertyNamePred nsEx) (Node.lit "label"), ?_, ?_⟩
  · exact thm.2.2.1 sN tN "label" rdfsLabelStr "en" "Foo" (by decide) (by decide)
      (by decide) (by decide) (by decide)
  · exact thm.2.2.2 sN tN "label" rdfsLabelStr "en" "Foo" (by decide) (by decide)
      (by decide) (by decide) (by decide) (by decide)

lemma constructedTriples_empty_of_no_trans {g : Graph} {ns : String}
    {pm : List (String × String)} (h : ∀ tr ∈ g, tr.2.1 ≠ translationsPred ns) :
    constructedTriples g ns pm = ∅ := by
  ext tr
  simp only [Finset.not_mem_empty, iff_false]
  intro hmem
  obtain ⟨s, t, hst, _⟩ := mem_constructedTriples.mp hmem
  exact h _ hst rfl

/-- Claim C8: running `add_language` again with the same base namespace and
    property map on a graph already cleaned by a first run — one with no
    remaining translations edges (and hence no translation nodes) — leaves
    the triple set unchanged: the CONSTRUCT phase matches nothing and the
    DELETE phase deletes nothing. -/
theorem C8_idempotent_on_cleaned (g : Graph) (ns : String)
    (pm : List (String × String)) (g' : Graph)
    (h : add_language g ns pm = Except.ok g')
    (hclean : ∀ tr ∈ g', tr.2.1 ≠ translationsPred ns) :
    add_language g' ns pm = Except.ok g' := by
  have hsep := add_language_sep h
  unfold add_language
  rw [if_pos hsep]
  dsimp only
  rw [constructedTriples_empty_of_no_trans hclean, Finset.union_empty]
  congr 1
  apply Finset.filter_true_of_mem
  intro tr htr hdel
  rcases hdel with ⟨hpred, -⟩ | ⟨e, he, hpe, -⟩
  · exact hclean tr htr hpred
  · exact hclean e he hpe

/-- Claim C8 witness: cleaning the scenario-D graph and then cleaning its
    result again returns the result unchanged. -/
theorem C8_idempotent_witness : add_language cleanedScenD nsEx pmEx = Except.ok cleanedScenD :=
  C8_idempotent_on_cleaned gScenD nsEx pmEx cleanedScenD (by decide) (by decide)

/-- Claim C10 (amended): after a successful `add_language`, every node
    reachable via a translations edge that has at least one outgoing triple
    is removed together with all triples having it as subject and all its
    incoming translations edges, silently and without error, even when it
    is not well-formed (e.g. a node with no `language` attribute contributes
    no constructed literal triple); a reachable node with no outgoing
    triples keeps its incoming translations edges. -/
theorem C10_amended_reachable_node_removal (g : Graph) (ns : String)
    (pm : List (String × String)) (g' : Graph)
    (h : add_language g ns pm = Except.ok g') :
    ∀ s t, (s, translationsPred ns, t) ∈ g →
      (∃ p o, (t, p, o) ∈ g) →
      (∀ p o, (t, p, o) ∉ g')
      ∧ (∀ s2, (s2, translationsPred ns, t) ∉ g')
      ∧ (g.filter (fun tr => tr.1 = t ∧ tr.2.1 = languagePred ns) = ∅ →
          nodeConstructed g ns pm s t = ∅) := by
  intro s t hst hout
  have hg' := add_language_ok h
  refine ⟨?_, ?_, ?_⟩
  · intro p o hto
    rw [hg', Finset.mem_filter] at hto
    exact hto.2 (Or.inr ⟨(s, translationsPred ns, t), Finset.mem_union_left _ hst, rfl, rfl⟩)
  · intro s2 hs2
    rw [hg', Finset.mem_filter] at hs2
    obtain ⟨p, o, hpo⟩ := hout
    exact hs2.2 (Or.inl ⟨rfl, (t, p, o), Finset.mem_union_left _ hpo, rfl⟩)
  · intro hnolang
    ext tr
    simp only [Finset.not_mem_empty, iff_false]
    intro hmem
    obtain ⟨k, v, lang, val, hkv, hp, hl, hv, rfl⟩ := mem_nodeConstructed.mp hmem
    have hmem2 : (t, languagePred ns, Node.lit lang)
        ∈ g.filter (fun tr => tr.1 = t ∧ tr.2.1 = languagePred ns) :=
      Finset.mem_filter.mpr ⟨hl, rfl, rfl⟩
    rw [hnolang] at hmem2
    exact Finset.not_mem_empty _ hmem2

/-- Claim C10 witness: the malformed node `w` (carries only a
    `property_name`) is deleted together with its incoming translations
    edge, and contributes no constructed triple. -/
theorem C10_amended_witness :
    ((Node.uri "w", propertyNamePred nsEx, Node.lit "label") ∉ (∅ : Graph))
    ∧ ((Node.uri "m", translationsPred nsEx, Node.uri "w") ∉ (∅ : Graph))
    ∧ nodeConstructed gMal nsEx pmEx (Node.uri "m") (Node.uri "w") = ∅ := by
  have thm := C10_amended_reachable_node_removal gMal nsEx pmEx ∅ (by decide)
    (Node.uri "m") (Node.uri "w") (by decide)
    ⟨propertyNamePred nsEx, Node.lit "label", by decide⟩
  exact ⟨thm.1 _ _, thm.2.1 _, thm.2.2 (by decide)⟩

lemma splitFold_foldl_snd (r : String → Option Node) :
    ∀ (cs : List String) (acc : Finset (String × Graph) × Graph),
      (cs.foldl (splitFold r) acc).2 = acc.2 := by
  intro cs
  induction cs with
  | nil => intro acc; rfl
  | cons c cs ih =>
    intro acc
    rw [List.foldl_cons, ih]
    rfl

lemma splitFold_foldl_fst_mem (r : String → Option Node) :
    ∀ (cs : List String) (acc : Finset (String × Graph) × Graph) (pr : String × Graph),
      pr ∈ (cs.foldl (splitFold r) acc).1 ↔
        pr ∈ acc.1 ∨ ∃ c ∈ cs, pr ∈ assertionsFor acc.2 (expandOr r c) := by
  intro cs
  induction cs with
  | nil =>
    intro acc pr
    simp
  | cons c cs ih =>
    intro acc pr
    rw [List.foldl_cons, ih]
    simp only [splitFold, Finset.mem_union, List.mem_cons]
    constructor
    · rintro (⟨h1 | h2⟩ | ⟨c', hc', hm⟩)
      · exact Or.inl h1
      · exact Or.inr ⟨c, Or.inl rfl, h2⟩
      · exact Or.inr ⟨c', Or.inr hc', hm⟩
    · rintro (h1 | ⟨c', hc' | hc', hm⟩)
      · exact Or.inl (Or.inl h1)
      · exact Or.inl (Or.inr (hc' ▸ hm))
      · exact Or.inr ⟨c', hc', hm⟩

lemma mem_assertionsFor {g : Graph} {p : Node} {pr : String × Graph} :
    pr ∈ assertionsFor g p ↔
      ∃ e ∈ g, e.2.1 = rdfsSubClassOf ∧ e.2.2 = p
        ∧ pr = (termId (nodeStr e.1), subjectTriples g e.1) := by
  unfold assertionsFor
  rw [Finset.mem_image]
  constructor
  · rintro ⟨e, he, hpr⟩
    obtain ⟨heg, hsc, hp⟩ := Finset.mem_filter.mp he
    exact ⟨e, heg, hsc, hp, hpr.symm⟩
  · rintro ⟨e, heg, hsc, hp, rfl⟩
    exact ⟨e, Finset.mem_filter.mpr ⟨heg, hsc, hp⟩, rfl⟩

/-- Claim C4: for every graph and parent set, the union of the triple sets
    of all yielded assertion graphs equals exactly the set of triples of
    the graph whose subject has a direct `rdfs:subClassOf` edge to some
    (resolved) member of the parent set; and the empty parent set yields no
    pairs. -/
theorem C4_split_completeness (g : Graph) (resolve : String → Option Node)
    (cs : List String) :
    ((split_into_assertions g resolve cs).1).biUnion Prod.snd
        = g.filter (fun tr => ∃ c ∈ cs, (tr.1, rdfsSubClassOf, expandOr resolve c) ∈ g)
      ∧ (split_into_assertions g resolve []).1 = ∅ := by
  constructor
  · ext tr
    rw [Finset.mem_biUnion]
    simp only [split_into_assertions]
    constructor
    · rintro ⟨pr, hpr, htr⟩
      rw [splitFold_foldl_fst_mem] at hpr
      rcases hpr with h0 | ⟨c, hc, hmem⟩
      · exact absurd h0 (Finset.not_mem_empty pr)
      · obtain ⟨e, he, hsc, hp, rfl⟩ := mem_assertionsFor.mp hmem
        obtain ⟨htrg, htr1⟩ := Finset.mem_filter.mp htr
        refine Finset.mem_filter.mpr ⟨htrg, c, hc, ?_⟩
        have heta : e = (e.1, e.2.1, e.2.2) := rfl
        rw [hsc, hp] at heta
        rw [htr1, ← heta]
        exact he
    · intro h
      obtain ⟨htrg, c, hc, hsub⟩ := Finset.mem_filter.mp h
      refine ⟨(termId (nodeStr tr.1), subjectTriples g tr.1), ?_, ?_⟩
      · rw [splitFold_foldl_fst_mem]
        exact Or.inr ⟨c, hc, mem_assertionsFor.mpr
          ⟨(tr.1, rdfsSubClassOf, expandOr resolve c), hsub, rfl, rfl, rfl⟩⟩
      · exact Finset.mem_filter.mpr ⟨htrg, rfl⟩
  · rfl

/-- Claim C9: `split_into_assertions` never mutates its input graph — for
    every graph and parent set, the store state threaded through the fully
    consumed generator equals the input graph (the splitter only reads the
    store and copies triples into newly created graphs). -/
theorem C9_splitter_no_mutation (g : Graph) (resolve : String → Option Node)
    (cs : List String) :
    (split_into_assertions g resolve cs).2 = g :=
  splitFold_foldl_snd resolve cs (∅, g)

end Pubmate
